import Mathlib

/-!
Shallow embedding of the trivia-arena action handlers
(`src/actions/index.ts`) and its four astro:db tables.

Modelling conventions:
* Each table is a `List` of row structures; the whole store is `DB`.
* `db.select().from(T).where(p).limit(1)` is `List.find?`;
  `db.update(T).set(u).where(p)` maps the update over the rows matching `p`
  (`updateWhere`); `db.insert(T).values(v)` appends the row.
* `crypto.randomUUID()` and `new Date()` are nondeterministic inputs, passed
  as explicit parameters (`freshId : String`, `now : Nat`).
* Each handler is a pure function `DB → ... → Except Err (DB × result)`.
  An `ActionError` throw is `Except.error`; since in the source every throw
  happens before any `db.insert`/`db.update`, an error leaves the store
  untouched, which the embedding reflects by returning no new `DB` on error.
  Read-only handlers return the store unchanged.
* JavaScript truthiness on `string | undefined` (`if (input.name)`,
  `!!input.selectedOptionKey`) is `truthy : Option String → Bool`, false on
  `none` and on `some ""`; `??` is `Option.getD`; `===` on nullable strings
  is `==` on `Option String`.
-/

namespace TriviaArena

/-- The `ActionError` codes used by the handlers. -/
inductive ErrCode where
  | UNAUTHORIZED
  | NOT_FOUND
  | BAD_REQUEST
  | FORBIDDEN
deriving DecidableEq, Repr

/-- An `ActionError`: code plus message. -/
structure Err where
  code : ErrCode
  message : String
deriving DecidableEq, Repr

/-- The authenticated user resolved from `context.locals` (`App.Locals`). -/
structure User where
  id : String
  email : Option String
deriving DecidableEq, Repr

/-- A row of the `TriviaRooms` table. -/
structure Room where
  id : String
  hostUserId : String
  name : String
  accessCode : Option String
  status : Option String
  maxPlayers : Option Nat
  createdAt : Nat
  updatedAt : Nat
deriving DecidableEq, Repr

/-- A row of the `TriviaPlayers` table. -/
structure Player where
  id : String
  roomId : String
  userId : Option String
  displayName : String
  totalScore : Int
  joinedAt : Nat
  leftAt : Option Nat
deriving DecidableEq, Repr

/-- A row of the `TriviaQuestions` table. -/
structure Question where
  id : String
  roomId : String
  orderIndex : Int
  questionText : String
  optionA : Option String
  optionB : Option String
  optionC : Option String
  optionD : Option String
  correctOptionKey : Option String
  timeLimitSeconds : Option Nat
  createdAt : Nat
deriving DecidableEq, Repr

/-- A row of the `TriviaAnswers` table. -/
structure Answer where
  id : String
  questionId : String
  playerId : String
  selectedOptionKey : Option String
  isCorrect : Bool
  answeredAt : Nat
  scoreAwarded : Int
deriving DecidableEq, Repr

/-- The relational store: the four tables. -/
structure DB where
  rooms : List Room
  players : List Player
  questions : List Question
  answers : List Answer
deriving DecidableEq, Repr

/-- JavaScript truthiness of a `string | null | undefined` value. -/
def truthy : Option String → Bool
  | none => false
  | some s => !(s == "")

/-- `db.update(T).set(f).where(p)`: apply `f` to every row satisfying `p`. -/
def updateWhere (p : α → Bool) (f : α → α) (l : List α) : List α :=
  l.map fun x => if p x then f x else x

/-- `requireUser`: throw `UNAUTHORIZED` when no user is signed in. -/
def requireUser : Option User → Except Err User
  | none => .error ⟨.UNAUTHORIZED, "You must be signed in to perform this action."⟩
  | some u => .ok u

/-- `loadOwnedRoom`: first room whose `id` and `hostUserId` both match,
`NOT_FOUND` otherwise. -/
def loadOwnedRoom (s : DB) (roomId userId : String) : Except Err Room :=
  match s.rooms.find? fun r => r.id == roomId && r.hostUserId == userId with
  | none => .error ⟨.NOT_FOUND, "Room not found for this user."⟩
  | some r => .ok r

/-! ### createRoom -/

/-- Input of `createRoom` (after zod validation). -/
structure CreateRoomInput where
  name : String
  accessCode : Option String
  status : Option String
  maxPlayers : Option Nat
deriving DecidableEq, Repr

/-- The `createRoom` handler. -/
def createRoom (s : DB) (ctx : Option User) (inp : CreateRoomInput)
    (freshId : String) (now : Nat) : Except Err (DB × Room) :=
  match requireUser ctx with
  | .error e => .error e
  | .ok user =>
    let room : Room :=
      { id := freshId
        hostUserId := user.id
        name := inp.name
        accessCode := inp.accessCode
        status := some (inp.status.getD "lobby")
        maxPlayers := inp.maxPlayers
        createdAt := now
        updatedAt := now }
    .ok ({ s with rooms := s.rooms ++ [room] }, room)

/-! ### updateRoom -/

/-- Input of `updateRoom` (after zod validation). -/
structure UpdateRoomInput where
  id : String
  name : Option String
  accessCode : Option String
  status : Option String
  maxPlayers : Option Nat
deriving DecidableEq, Repr

/-- The `updates` record spread onto a room row: `updatedAt` always, each
other field only when the source adds it (`if (input.name)`,
`input.accessCode !== undefined`, `if (input.status)`,
`input.maxPlayers !== undefined`). -/
def applyRoomUpdates (inp : UpdateRoomInput) (now : Nat) (r : Room) : Room :=
  { r with
    name := if truthy inp.name then inp.name.getD r.name else r.name
    accessCode := if inp.accessCode.isSome then inp.accessCode else r.accessCode
    status := if truthy inp.status then inp.status else r.status
    maxPlayers := if inp.maxPlayers.isSome then inp.maxPlayers else r.maxPlayers
    updatedAt := now }

/-- `Object.keys(updates).length === 1` fails, i.e. some field besides
`updatedAt` was added to the update record. -/
def updateRoomHasChanges (inp : UpdateRoomInput) : Bool :=
  truthy inp.name || inp.accessCode.isSome || truthy inp.status
    || inp.maxPlayers.isSome

/-- The `updateRoom` handler. -/
def updateRoom (s : DB) (ctx : Option User) (inp : UpdateRoomInput)
    (now : Nat) : Except Err (DB × Room) :=
  match requireUser ctx with
  | .error e => .error e
  | .ok user =>
    match loadOwnedRoom s inp.id user.id with
    | .error e => .error e
    | .ok room =>
      if updateRoomHasChanges inp then
        .ok ({ s with
                rooms := updateWhere (fun r => r.id == room.id)
                  (applyRoomUpdates inp now) s.rooms },
             applyRoomUpdates inp now room)
      else
        .error ⟨.BAD_REQUEST, "No changes provided for update."⟩

/-! ### listMyRooms -/

/-- Input of `listMyRooms` (after zod validation; `page ≥ 1`). -/
structure ListMyRoomsInput where
  page : Nat
  pageSize : Nat
deriving DecidableEq, Repr

/-- The `listMyRooms` handler: page through the caller's rooms ordered by
`createdAt` ascending, with the total row count. -/
def listMyRooms (s : DB) (ctx : Option User) (inp : ListMyRoomsInput) :
    Except Err (DB × (List Room × Nat)) :=
  match requireUser ctx with
  | .error e => .error e
  | .ok user =>
    let mine := (s.rooms.filter fun r => r.hostUserId == user.id).mergeSort
      fun a b => decide (a.createdAt ≤ b.createdAt)
    let items := (mine.drop ((inp.page - 1) * inp.pageSize)).take inp.pageSize
    .ok (s, (items, (s.rooms.filter fun r => r.hostUserId == user.id).length))

/-! ### upsertQuestion -/

/-- Input of `upsertQuestion` (after zod validation). -/
structure UpsertQuestionInput where
  roomId : String
  id : Option String
  orderIndex : Int
  questionText : String
  optionA : Option String
  optionB : Option String
  optionC : Option String
  optionD : Option String
  correctOptionKey : Option String
  timeLimitSeconds : Option Nat
deriving DecidableEq, Repr

/-- The `questionPayload` record spread onto a question row (keeps `id` and
`createdAt` of the row it is spread over). -/
def applyQuestionPayload (inp : UpsertQuestionInput) (q : Question) : Question :=
  { q with
    roomId := inp.roomId
    orderIndex := inp.orderIndex
    questionText := inp.questionText
    optionA := inp.optionA
    optionB := inp.optionB
    optionC := inp.optionC
    optionD := inp.optionD
    correctOptionKey := inp.correctOptionKey
    timeLimitSeconds := inp.timeLimitSeconds }

/-- The `upsertQuestion` handler. -/
def upsertQuestion (s : DB) (ctx : Option User) (inp : UpsertQuestionInput)
    (freshId : String) (now : Nat) : Except Err (DB × Question) :=
  match requireUser ctx with
  | .error e => .error e
  | .ok user =>
    match loadOwnedRoom s inp.roomId user.id with
    | .error e => .error e
    | .ok _ =>
      if truthy inp.id then
        let qid := inp.id.getD ""
        match s.questions.find? fun q => q.id == qid with
        | none => .error ⟨.NOT_FOUND, "Question not found."⟩
        | some existing =>
          if existing.roomId == inp.roomId then
            .ok ({ s with
                    questions := updateWhere (fun q => q.id == qid)
                      (applyQuestionPayload inp) s.questions },
                 applyQuestionPayload inp existing)
          else
            .error ⟨.FORBIDDEN, "Question does not belong to this room."⟩
      else
        let newQ : Question :=
          { id := freshId
            roomId := inp.roomId
            orderIndex := inp.orderIndex
            questionText := inp.questionText
            optionA := inp.optionA
            optionB := inp.optionB
            optionC := inp.optionC
            optionD := inp.optionD
            correctOptionKey := inp.correctOptionKey
            timeLimitSeconds := inp.timeLimitSeconds
            createdAt := now }
        .ok ({ s with questions := s.questions ++ [newQ] }, newQ)

/-! ### listRoomQuestions -/

/-- The `listRoomQuestions` handler: the owned room's questions ordered by
`orderIndex` ascending, with their count. -/
def listRoomQuestions (s : DB) (ctx : Option User) (roomId : String) :
    Except Err (DB × (List Question × Nat)) :=
  match requireUser ctx with
  | .error e => .error e
  | .ok user =>
    match loadOwnedRoom s roomId user.id with
    | .error e => .error e
    | .ok _ =>
      let questions := (s.questions.filter fun q => q.roomId == roomId).mergeSort
        fun a b => decide (a.orderIndex ≤ b.orderIndex)
      .ok (s, (questions, questions.length))

/-! ### joinRoom -/

/-- Input of `joinRoom` (after zod validation; `displayName` length 1..120
when present). -/
structure JoinRoomInput where
  roomId : String
  displayName : Option String
deriving DecidableEq, Repr

/-- The `joinRoom` handler. -/
def joinRoom (s : DB) (ctx : Option User) (inp : JoinRoomInput)
    (freshId : String) (now : Nat) : Except Err (DB × Player) :=
  match requireUser ctx with
  | .error e => .error e
  | .ok user =>
    match s.rooms.find? fun r => r.id == inp.roomId with
    | none => .error ⟨.NOT_FOUND, "Room not found."⟩
    | some _ =>
      match s.players.find? fun p =>
          p.roomId == inp.roomId && p.userId == some user.id with
      | some existing => .ok (s, existing)
      | none =>
        let player : Player :=
          { id := freshId
            roomId := inp.roomId
            userId := some user.id
            displayName := inp.displayName.getD (user.email.getD "Player")
            totalScore := 0
            joinedAt := now
            leftAt := none }
        .ok ({ s with players := s.players ++ [player] }, player)

/-! ### recordAnswer -/

/-- Input of `recordAnswer` (after zod validation; `selectedOptionKey`, when
present, is one of `"A"`, `"B"`, `"C"`, `"D"`). -/
structure RecordAnswerInput where
  questionId : String
  playerId : String
  selectedOptionKey : Option String
deriving DecidableEq, Repr

/-- `!!input.selectedOptionKey && !!question.correctOptionKey &&
input.selectedOptionKey === question.correctOptionKey`. -/
def isCorrectCalc (sel cok : Option String) : Bool :=
  truthy sel && truthy cok && sel == cok

/-- The write phase of `recordAnswer`, after all checks have passed:
upsert the answer row and reconcile the player's `totalScore`. -/
def recordAnswerCore (s : DB) (inp : RecordAnswerInput) (question : Question)
    (player : Player) (freshId : String) (now : Nat) : DB × Answer :=
  let isCorrect := isCorrectCalc inp.selectedOptionKey question.correctOptionKey
  let newScore : Int := if isCorrect then 10 else 0
  let existingAnswer := s.answers.find? fun a =>
    a.questionId == inp.questionId && a.playerId == inp.playerId
  let previousScore : Int := (existingAnswer.map (·.scoreAwarded)).getD 0
  let answerId := (existingAnswer.map (·.id)).getD freshId
  let answers' :=
    match existingAnswer with
    | some _ =>
      updateWhere (fun a => a.id == answerId)
        (fun a => { a with
            selectedOptionKey := inp.selectedOptionKey
            isCorrect := isCorrect
            answeredAt := now
            scoreAwarded := newScore }) s.answers
    | none =>
      s.answers ++
        [{ id := answerId
           questionId := inp.questionId
           playerId := inp.playerId
           selectedOptionKey := inp.selectedOptionKey
           isCorrect := isCorrect
           answeredAt := now
           scoreAwarded := newScore }]
  let players' :=
    updateWhere (fun p => p.id == player.id)
      (fun p => { p with
          totalScore := player.totalScore - previousScore + newScore })
      s.players
  ({ s with answers := answers', players := players' },
   { id := answerId
     questionId := inp.questionId
     playerId := inp.playerId
     selectedOptionKey := inp.selectedOptionKey
     isCorrect := isCorrect
     answeredAt := now
     scoreAwarded := newScore })

/-- The `recordAnswer` handler. -/
def recordAnswer (s : DB) (ctx : Option User) (inp : RecordAnswerInput)
    (freshId : String) (now : Nat) : Except Err (DB × Answer) :=
  match requireUser ctx with
  | .error e => .error e
  | .ok user =>
    match s.questions.find? fun q => q.id == inp.questionId with
    | none => .error ⟨.NOT_FOUND, "Question not found."⟩
    | some question =>
      match s.players.find? fun p => p.id == inp.playerId with
      | none => .error ⟨.NOT_FOUND, "Player not found."⟩
      | some player =>
        if player.roomId == question.roomId then
          match s.rooms.find? fun r => r.id == question.roomId with
          | none => .error ⟨.NOT_FOUND, "Room not found."⟩
          | some room =>
            if room.hostUserId == user.id || player.userId == some user.id then
              .ok (recordAnswerCore s inp question player freshId now)
            else
              .error ⟨.FORBIDDEN,
                "You do not have permission to record this answer."⟩
        else
          .error ⟨.BAD_REQUEST, "Player and question are in different rooms."⟩

/-! ### Derived notions used by the specification claims -/

/-- The answer row, if any, for a `(questionId, playerId)` pair (the row
`recordAnswer` looks up before deciding between update and insert). -/
def answerFor (s : DB) (qid pid : String) : Option Answer :=
  s.answers.find? fun a => a.questionId == qid && a.playerId == pid

/-- The `totalScore` of the (first) player row with the given id. -/
def playerTotal (s : DB) (pid : String) : Option Int :=
  (s.players.find? fun p => p.id == pid).map (·.totalScore)

/-- Sum of `scoreAwarded` over the answer rows belonging to a player. -/
def sumFor (l : List Answer) (pid : String) : Int :=
  ((l.filter fun a => a.playerId == pid).map fun a => a.scoreAwarded).sum

/-- Scoring invariant: every player row's `totalScore` is the sum of
`scoreAwarded` over that player's answer rows. -/
def ScoreInv (s : DB) : Prop :=
  ∀ p ∈ s.players, p.totalScore = sumFor s.answers p.id

/-- Number of answer rows for a `(questionId, playerId)` pair. -/
def answerPairCount (s : DB) (qid pid : String) : Nat :=
  (s.answers.filter fun a => a.questionId == qid && a.playerId == pid).length

/-- At most one answer row per `(questionId, playerId)` pair. -/
def AnswersUnique (s : DB) : Prop :=
  ∀ qid pid, answerPairCount s qid pid ≤ 1

/-- Number of player rows for a room joined by a given (non-guest) user. -/
def playerPairCount (s : DB) (rid uid : String) : Nat :=
  (s.players.filter fun p => p.roomId == rid && p.userId == some uid).length

/-- At most one player row per `(roomId, userId)` pair. -/
def PlayersUnique (s : DB) : Prop :=
  ∀ rid uid, playerPairCount s rid uid ≤ 1

/-- Row ids in a list are pairwise distinct (primary-key property), for a
given key function. -/
def KeyUnique (key : α → String) (l : List α) : Prop :=
  l.Pairwise fun a b => key a ≠ key b

/-! ### List helper lemmas -/

theorem find?_updateWhere (q : α → Bool) (f : α → α) (p : α → Bool)
    (l : List α) (h : ∀ x, p (f x) = p x) :
    (updateWhere q f l).find? p
      = (l.find? p).map fun x => if q x then f x else x := by
  induction l with
  | nil => rfl
  | cons a l ih =>
    by_cases hq : q a = true
    · by_cases hp : p a = true
      · simp [updateWhere, List.find?_cons, hq, hp, h a]
      · simp only [Bool.not_eq_true] at hp
        simp [updateWhere, List.find?_cons, hq, hp, h a] at ih ⊢
        exact ih
    · simp only [Bool.not_eq_true] at hq
      by_cases hp : p a = true
      · simp [updateWhere, List.find?_cons, hq, hp]
      · simp only [Bool.not_eq_true] at hp
        simp [updateWhere, List.find?_cons, hq, hp] at ih ⊢
        exact ih

theorem length_filter_updateWhere (q : α → Bool) (f : α → α) (p : α → Bool)
    (l : List α) (h : ∀ x, p (f x) = p x) :
    ((updateWhere q f l).filter p).length = (l.filter p).length := by
  induction l with
  | nil => rfl
  | cons a l ih =>
    by_cases hq : q a = true <;> by_cases hp : p a = true <;>
      simp_all [updateWhere, List.filter_cons, h a]

theorem length_updateWhere (q : α → Bool) (f : α → α) (l : List α) :
    (updateWhere q f l).length = l.length := by
  simp [updateWhere]

theorem eq_of_mem_of_key (key : α → String) {l : List α} {a b : α}
    (h : KeyUnique key l) (ha : a ∈ l) (hb : b ∈ l) (hk : key a = key b) :
    a = b := by
  induction l with
  | nil => cases ha
  | cons x l ih =>
    rcases List.pairwise_cons.mp h with ⟨hx, hl⟩
    rcases List.mem_cons.mp ha with rfl | ha' <;>
      rcases List.mem_cons.mp hb with rfl | hb'
    · rfl
    · exact absurd hk (hx _ hb')
    · exact absurd hk.symm (hx _ ha')
    · exact ih hl ha' hb'

theorem sumFor_append (l₁ l₂ : List Answer) (pid : String) :
    sumFor (l₁ ++ l₂) pid = sumFor l₁ pid + sumFor l₂ pid := by
  simp [sumFor, List.filter_append]

theorem sumFor_cons (a : Answer) (l : List Answer) (pid : String) :
    sumFor (a :: l) pid
      = (if a.playerId == pid then a.scoreAwarded else 0) + sumFor l pid := by
  by_cases h : a.playerId == pid <;> simp_all [sumFor, List.filter_cons]

theorem sumFor_nil (pid : String) : sumFor [] pid = 0 := rfl

/-! ### Structural lemmas about `recordAnswer` -/

/-- When every lookup and check succeeds, `recordAnswer` runs its write
phase `recordAnswerCore`. -/
theorem recordAnswer_ok (s : DB) (user : User) (inp : RecordAnswerInput)
    (freshId : String) (now : Nat) {question : Question} {player : Player}
    {room : Room}
    (hq : s.questions.find? (fun q => q.id == inp.questionId) = some question)
    (hp : s.players.find? (fun p => p.id == inp.playerId) = some player)
    (hrm : player.roomId = question.roomId)
    (hr : s.rooms.find? (fun r => r.id == question.roomId) = some room)
    (hauth : room.hostUserId = user.id ∨ player.userId = some user.id) :
    recordAnswer s (some user) inp freshId now
      = .ok (recordAnswerCore s inp question player freshId now) := by
  have h1 : (player.roomId == question.roomId) = true := by simp [hrm]
  have h2 : (room.hostUserId == user.id || player.userId == some user.id)
      = true := by
    rcases hauth with h | h <;> simp [h]
  simp [recordAnswer, requireUser, hq, hp, hr, h1, h2]

/-- Under the zod validation of `selectedOptionKey` (never the empty
string), the source's truthiness-based correctness test coincides with
"both keys present and equal". -/
theorem isCorrectCalc_eq_claim (sel cok : Option String)
    (hsel : sel ≠ some "") :
    isCorrectCalc sel cok = (sel.isSome && cok.isSome && sel == cok) := by
  cases sel with
  | none => rfl
  | some a =>
    cases cok with
    | none => simp [isCorrectCalc, truthy]
    | some b =>
      have ha : ¬(a = "") := fun h => hsel (by simp [h])
      by_cases hab : a = b
      · subst hab
        simp [isCorrectCalc, truthy, ha]
      · simp [isCorrectCalc, truthy, hab]

/-- The id of the (first) player row with the given id is that id. -/
theorem player_id_of_find? {s : DB} {pid : String} {player : Player}
    (hp : s.players.find? (fun p => p.id == pid) = some player) :
    player.id = pid := by
  simpa using List.find?_some hp

/-- C1: when the question and player exist, share a room that exists, and
the caller is that room's host or the player's user, `recordAnswer`
succeeds; afterwards the player's `totalScore` is its previous value minus
`previousScore` plus `newScore`, where `previousScore` is the
`scoreAwarded` of the pre-existing answer row for the pair (0 when there
is none) and `newScore` is 10 exactly when `selectedOptionKey` and
`correctOptionKey` are both present and equal; the returned answer carries
this `newScore` as `scoreAwarded` and the corresponding `isCorrect` flag. -/
theorem recordAnswer_score_reconciliation
    (s : DB) (user : User) (inp : RecordAnswerInput) (freshId : String)
    (now : Nat) (question : Question) (player : Player) (room : Room)
    (hq : s.questions.find? (fun q => q.id == inp.questionId) = some question)
    (hp : s.players.find? (fun p => p.id == inp.playerId) = some player)
    (hrm : player.roomId = question.roomId)
    (hr : s.rooms.find? (fun r => r.id == question.roomId) = some room)
    (hauth : room.hostUserId = user.id ∨ player.userId = some user.id)
    (hsel : inp.selectedOptionKey ≠ some "") :
    ∃ s' ans, recordAnswer s (some user) inp freshId now = .ok (s', ans) ∧
      playerTotal s' inp.playerId
        = some (player.totalScore
            - ((answerFor s inp.questionId inp.playerId).map
                (·.scoreAwarded)).getD 0
            + (if inp.selectedOptionKey.isSome
                  && question.correctOptionKey.isSome
                  && inp.selectedOptionKey == question.correctOptionKey
               then (10 : Int) else 0)) ∧
      ans.scoreAwarded
        = (if inp.selectedOptionKey.isSome
              && question.correctOptionKey.isSome
              && inp.selectedOptionKey == question.correctOptionKey
           then (10 : Int) else 0) ∧
      ans.isCorrect
        = (inp.selectedOptionKey.isSome && question.correctOptionKey.isSome
            && inp.selectedOptionKey == question.correctOptionKey) := by
  have hcalc := isCorrectCalc_eq_claim inp.selectedOptionKey
    question.correctOptionKey hsel
  have hid : player.id = inp.playerId := player_id_of_find? hp
  refine ⟨(recordAnswerCore s inp question player freshId now).1,
    (recordAnswerCore s inp question player freshId now).2,
    by rw [recordAnswer_ok s user inp freshId now hq hp hrm hr hauth],
    ?_, ?_, ?_⟩
  · show playerTotal
      { s with
        answers := _
        players := updateWhere (fun p => p.id == player.id)
          (fun p => { p with totalScore := player.totalScore
            - ((s.answers.find? fun a => a.questionId == inp.questionId
                  && a.playerId == inp.playerId).map (·.scoreAwarded)).getD 0
            + (if isCorrectCalc inp.selectedOptionKey question.correctOptionKey
               then (10 : Int) else 0) }) s.players } inp.playerId = _
    rw [playerTotal]
    show (List.find? _ (updateWhere _ _ _)).map _ = _
    rw [find?_updateWhere, hp]
    · simp [hid, answerFor, hcalc]
    · intro x
      rfl
  · show (if isCorrectCalc inp.selectedOptionKey question.correctOptionKey
        then (10 : Int) else 0) = _
    rw [hcalc]
  · show isCorrectCalc inp.selectedOptionKey question.correctOptionKey = _
    rw [hcalc]

/-- The store after running an action: the returned one on success, the
original on a throw (in the source every throw happens before any write,
which the embedding mirrors by construction). -/
def runState (s : DB) : Except Err (DB × α) → DB
  | .ok (s', _) => s'
  | .error _ => s

/-! ### Concrete fixtures for the witnesses -/

def exUser : User := ⟨"u1", some "u1@example.com"⟩

def exUser2 : User := ⟨"u2", none⟩

def exHost : User := ⟨"h1", none⟩

def exRoom : Room := ⟨"r1", "h1", "Friday Fun Quiz", none, some "lobby", some 8, 0, 0⟩

def exRoom2 : Room := ⟨"r2", "h2", "Other Quiz", none, some "completed", some 1, 1, 1⟩

def exQuestion : Question :=
  ⟨"q1", "r1", 0, "2+2?", some "3", some "4", none, none, some "B", some 30, 0⟩

def exPlayer : Player := ⟨"p1", "r1", some "u1", "Alice", 0, 0, none⟩

def exPlayerB : Player := ⟨"p2", "r2", some "u1", "Alice", 0, 0, none⟩

def exDB : DB := ⟨[exRoom], [exPlayer], [exQuestion], []⟩

def exDB2 : DB := ⟨[exRoom, exRoom2], [exPlayerB], [exQuestion], []⟩

def exInp : RecordAnswerInput := ⟨"q1", "p1", some "B"⟩

def exInpB : RecordAnswerInput := ⟨"q1", "p2", none⟩

/-- Witness for C1: player `p1` answers question `q1` with the correct key
`B` in room `r1`; the score moves from 0 to 10. -/
theorem recordAnswer_score_reconciliation_witness :
    (exDB.questions.find? (fun q => q.id == exInp.questionId) = some exQuestion)
    ∧ (exDB.players.find? (fun p => p.id == exInp.playerId) = some exPlayer)
    ∧ exPlayer.roomId = exQuestion.roomId
    ∧ (exDB.rooms.find? (fun r => r.id == exQuestion.roomId) = some exRoom)
    ∧ (exRoom.hostUserId = exUser.id ∨ exPlayer.userId = some exUser.id)
    ∧ exInp.selectedOptionKey ≠ some ""
    ∧ ∃ s' ans, recordAnswer exDB (some exUser) exInp "a1" 5 = .ok (s', ans) ∧
        playerTotal s' exInp.playerId
          = some (exPlayer.totalScore
              - ((answerFor exDB exInp.questionId exInp.playerId).map
                  (·.scoreAwarded)).getD 0
              + (if exInp.selectedOptionKey.isSome
                    && exQuestion.correctOptionKey.isSome
                    && exInp.selectedOptionKey == exQuestion.correctOptionKey
                 then (10 : Int) else 0)) ∧
        ans.scoreAwarded
          = (if exInp.selectedOptionKey.isSome
                && exQuestion.correctOptionKey.isSome
                && exInp.selectedOptionKey == exQuestion.correctOptionKey
             then (10 : Int) else 0) ∧
        ans.isCorrect
          = (exInp.selectedOptionKey.isSome && exQuestion.correctOptionKey.isSome
              && exInp.selectedOptionKey == exQuestion.correctOptionKey) :=
  ⟨rfl, rfl, rfl, rfl, Or.inr rfl, by decide,
   recordAnswer_score_reconciliation exDB exUser exInp "a1" 5 exQuestion
     exPlayer exRoom rfl rfl rfl rfl (Or.inr rfl) (by decide)⟩

/-- C4: when the referenced player and question both exist but live in
different rooms, `recordAnswer` throws `BAD_REQUEST`; when they share a
room that exists but the caller is neither that room's host nor the
player's user, it throws `FORBIDDEN`; and on every error the store is left
unmodified. -/
theorem recordAnswer_error_cases
    (s : DB) (user : User) (inp : RecordAnswerInput) (freshId : String)
    (now : Nat) (question : Question) (player : Player)
    (hq : s.questions.find? (fun q => q.id == inp.questionId) = some question)
    (hp : s.players.find? (fun p => p.id == inp.playerId) = some player) :
    (player.roomId ≠ question.roomId →
      recordAnswer s (some user) inp freshId now
        = .error ⟨.BAD_REQUEST, "Player and question are in different rooms."⟩)
    ∧ (∀ room, player.roomId = question.roomId →
        s.rooms.find? (fun r => r.id == question.roomId) = some room →
        room.hostUserId ≠ user.id → player.userId ≠ some user.id →
        recordAnswer s (some user) inp freshId now
          = .error ⟨.FORBIDDEN,
              "You do not have permission to record this answer."⟩)
    ∧ (∀ e, recordAnswer s (some user) inp freshId now = .error e →
        runState s (recordAnswer s (some user) inp freshId now) = s) := by
  refine ⟨fun hne => ?_, fun room hrm hr hhost huser => ?_, fun e he => ?_⟩
  · have h1 : (player.roomId == question.roomId) = false := by simp [hne]
    simp [recordAnswer, requireUser, hq, hp, h1]
  · have h1 : (player.roomId == question.roomId) = true := by simp [hrm]
    have h2 : (room.hostUserId == user.id || player.userId == some user.id)
        = false := by simp [hhost, huser]
    simp [recordAnswer, requireUser, hq, hp, hr, h1, h2]
  · rw [he]
    rfl

/-- Witness for C4: first a player of room `r2` answering a question of
room `r1` (`BAD_REQUEST`), then the outsider `u2` answering for `p1` in
`r1` (`FORBIDDEN`). -/
theorem recordAnswer_error_cases_witness :
    ((exDB2.questions.find? (fun q => q.id == exInpB.questionId)
        = some exQuestion)
      ∧ (exDB2.players.find? (fun p => p.id == exInpB.playerId)
          = some exPlayerB)
      ∧ exPlayerB.roomId ≠ exQuestion.roomId
      ∧ recordAnswer exDB2 (some exUser) exInpB "a1" 5
          = .error ⟨.BAD_REQUEST, "Player and question are in different rooms."⟩)
    ∧ ((exDB.questions.find? (fun q => q.id == exInp.questionId)
        = some exQuestion)
      ∧ (exDB.players.find? (fun p => p.id == exInp.playerId) = some exPlayer)
      ∧ exPlayer.roomId = exQuestion.roomId
      ∧ (exDB.rooms.find? (fun r => r.id == exQuestion.roomId) = some exRoom)
      ∧ exRoom.hostUserId ≠ exUser2.id
      ∧ exPlayer.userId ≠ some exUser2.id
      ∧ recordAnswer exDB (some exUser2) exInp "a1" 5
          = .error ⟨.FORBIDDEN,
              "You do not have permission to record this answer."⟩) :=
  ⟨⟨rfl, rfl, by decide,
    (recordAnswer_error_cases exDB2 exUser exInpB "a1" 5 exQuestion exPlayerB
      rfl rfl).1 (by decide)⟩,
   ⟨rfl, rfl, rfl, rfl, by decide, by decide,
    (recordAnswer_error_cases exDB exUser2 exInp "a1" 5 exQuestion exPlayer
      rfl rfl).2.1 exRoom rfl rfl (by decide) (by decide)⟩⟩

/-- The score `recordAnswer` awards for the submitted key. -/
def raScore (inp : RecordAnswerInput) (question : Question) : Int :=
  if isCorrectCalc inp.selectedOptionKey question.correctOptionKey then 10 else 0

/-- The field update `recordAnswer` applies to the existing answer row. -/
def raSetAnswer (inp : RecordAnswerInput) (question : Question) (now : Nat)
    (a : Answer) : Answer :=
  { a with
    selectedOptionKey := inp.selectedOptionKey
    isCorrect := isCorrectCalc inp.selectedOptionKey question.correctOptionKey
    answeredAt := now
    scoreAwarded := raScore inp question }

/-- The answer row `recordAnswer` returns (and, when none existed, inserts). -/
def raNewAnswer (inp : RecordAnswerInput) (question : Question) (aid : String)
    (now : Nat) : Answer :=
  { id := aid
    questionId := inp.questionId
    playerId := inp.playerId
    selectedOptionKey := inp.selectedOptionKey
    isCorrect := isCorrectCalc inp.selectedOptionKey question.correctOptionKey
    answeredAt := now
    scoreAwarded := raScore inp question }

/-- The `totalScore` reconciliation `recordAnswer` applies to the player row. -/
def raSetTotal (player : Player) (prev : Int) (inp : RecordAnswerInput)
    (question : Question) (p : Player) : Player :=
  { p with totalScore := player.totalScore - prev + raScore inp question }

/-- `recordAnswerCore` when an answer row for the pair already exists:
update that row by id, reconcile the score against its `scoreAwarded`. -/
theorem recordAnswerCore_existing (s : DB) (inp : RecordAnswerInput)
    (question : Question) (player : Player) (freshId : String) (now : Nat)
    {ea : Answer}
    (hea : s.answers.find? (fun a => a.questionId == inp.questionId
        && a.playerId == inp.playerId) = some ea) :
    recordAnswerCore s inp question player freshId now
      = ({ s with
            answers := updateWhere (fun a => a.id == ea.id)
              (raSetAnswer inp question now) s.answers
            players := updateWhere (fun p => p.id == player.id)
              (raSetTotal player ea.scoreAwarded inp question) s.players },
         raNewAnswer inp question ea.id now) := by
  unfold recordAnswerCore
  rw [hea]
  rfl

/-- `recordAnswerCore` when no answer row for the pair exists: insert one,
reconcile the score against a previous score of 0. -/
theorem recordAnswerCore_insert (s : DB) (inp : RecordAnswerInput)
    (question : Question) (player : Player) (freshId : String) (now : Nat)
    (hea : s.answers.find? (fun a => a.questionId == inp.questionId
        && a.playerId == inp.playerId) = none) :
    recordAnswerCore s inp question player freshId now
      = ({ s with
            answers := s.answers ++ [raNewAnswer inp question freshId now]
            players := updateWhere (fun p => p.id == player.id)
              (raSetTotal player 0 inp question) s.players },
         raNewAnswer inp question freshId now) := by
  unfold recordAnswerCore
  rw [hea]
  rfl

/-- C2: `recordAnswer` keeps at most one answer row per
`(questionId, playerId)` pair: with a pre-existing row it updates that row
in place (the returned answer keeps its id, no row is inserted, and every
pair's row count is unchanged); with none it inserts exactly the one
returned row for the pair. -/
theorem recordAnswer_upsert_unique
    (s : DB) (user : User) (inp : RecordAnswerInput) (freshId : String)
    (now : Nat) (question : Question) (player : Player) (room : Room)
    (hq : s.questions.find? (fun q => q.id == inp.questionId) = some question)
    (hp : s.players.find? (fun p => p.id == inp.playerId) = some player)
    (hrm : player.roomId = question.roomId)
    (hr : s.rooms.find? (fun r => r.id == question.roomId) = some room)
    (hauth : room.hostUserId = user.id ∨ player.userId = some user.id) :
    ∃ s' ans, recordAnswer s (some user) inp freshId now = .ok (s', ans) ∧
      (∀ ea, answerFor s inp.questionId inp.playerId = some ea →
        ans.id = ea.id ∧ s'.answers.length = s.answers.length
          ∧ ∀ qid pid, answerPairCount s' qid pid = answerPairCount s qid pid) ∧
      (answerFor s inp.questionId inp.playerId = none →
        s'.answers = s.answers ++ [ans]
          ∧ answerPairCount s' inp.questionId inp.playerId = 1) ∧
      (AnswersUnique s → AnswersUnique s') := by
  cases hea : s.answers.find? fun a => a.questionId == inp.questionId
      && a.playerId == inp.playerId with
  | some ea =>
    refine ⟨_, _, by
      rw [recordAnswer_ok s user inp freshId now hq hp hrm hr hauth,
        recordAnswerCore_existing s inp question player freshId now hea],
      ?_, ?_, ?_⟩
    · intro ea' hea'
      rw [answerFor, hea] at hea'
      cases hea'
      refine ⟨rfl, length_updateWhere _ _ _, fun qid pid => ?_⟩
      exact length_filter_updateWhere _ _ _ _ fun x => rfl
    · intro hnone
      rw [answerFor, hea] at hnone
      cases hnone
    · intro h qid pid
      have hc : answerPairCount
          ({ s with
              answers := updateWhere (fun a => a.id == ea.id)
                (raSetAnswer inp question now) s.answers
              players := updateWhere (fun p => p.id == player.id)
                (raSetTotal player ea.scoreAwarded inp question) s.players })
          qid pid = answerPairCount s qid pid :=
        length_filter_updateWhere _ _ _ _ fun x => rfl
      rw [hc]
      exact h qid pid
  | none =>
    have hzero : ∀ qid pid, (qid = inp.questionId ∧ pid = inp.playerId) →
        answerPairCount s qid pid = 0 := by
      rintro qid pid ⟨rfl, rfl⟩
      rw [answerPairCount]
      rw [List.length_eq_zero]
      rw [List.filter_eq_nil_iff]
      intro a ha
      have := List.find?_eq_none.mp hea a ha
      simpa using this
    refine ⟨_, _, by
      rw [recordAnswer_ok s user inp freshId now hq hp hrm hr hauth,
        recordAnswerCore_insert s inp question player freshId now hea],
      ?_, ?_, ?_⟩
    · intro ea' hea'
      rw [answerFor, hea] at hea'
      cases hea'
    · intro _
      refine ⟨rfl, ?_⟩
      show ((s.answers ++ [raNewAnswer inp question freshId now]).filter
        fun a => a.questionId == inp.questionId
          && a.playerId == inp.playerId).length = 1
      rw [List.filter_append]
      have h0 := hzero inp.questionId inp.playerId ⟨rfl, rfl⟩
      rw [answerPairCount, List.length_eq_zero] at h0
      rw [h0, List.nil_append]
      have hm : ((raNewAnswer inp question freshId now).questionId
          == inp.questionId
          && (raNewAnswer inp question freshId now).playerId
            == inp.playerId) = true := by
        simp [raNewAnswer]
      simp only [List.filter_cons, hm, if_true, List.filter_nil,
        List.length_cons, List.length_nil]
    · intro h qid pid
      show ((s.answers ++ [raNewAnswer inp question freshId now]).filter
        fun a => a.questionId == qid && a.playerId == pid).length ≤ 1
      rw [List.filter_append, List.length_append]
      by_cases hm : ((raNewAnswer inp question freshId now).questionId == qid
          && (raNewAnswer inp question freshId now).playerId == pid) = true
      · have hm' : (inp.questionId == qid && inp.playerId == pid) = true := hm
        simp only [Bool.and_eq_true, beq_iff_eq] at hm'
        obtain ⟨h1, h2⟩ := hm'
        subst h1
        subst h2
        have h0 := hzero inp.questionId inp.playerId ⟨rfl, rfl⟩
        rw [answerPairCount] at h0
        rw [h0]
        have hle : ((List.filter (fun a => a.questionId == inp.questionId
            && a.playerId == inp.playerId)
            [raNewAnswer inp question freshId now]).length ≤ 1) :=
          le_trans (List.length_filter_le _ _) (by simp)
        omega
      · rw [Bool.not_eq_true] at hm
        simp only [List.filter_cons, hm, Bool.false_eq_true, if_false,
          List.filter_nil, List.length_nil]
        have h1 := h qid pid
        rw [answerPairCount] at h1
        omega

/-- Witness for C2: the same concrete run as C1's witness, on a store with
no pre-existing answer rows. -/
theorem recordAnswer_upsert_unique_witness :
    (exDB.questions.find? (fun q => q.id == exInp.questionId) = some exQuestion)
    ∧ (exDB.players.find? (fun p => p.id == exInp.playerId) = some exPlayer)
    ∧ exPlayer.roomId = exQuestion.roomId
    ∧ (exDB.rooms.find? (fun r => r.id == exQuestion.roomId) = some exRoom)
    ∧ (exRoom.hostUserId = exUser.id ∨ exPlayer.userId = some exUser.id)
    ∧ ∃ s' ans, recordAnswer exDB (some exUser) exInp "a1" 5 = .ok (s', ans) ∧
        (∀ ea, answerFor exDB exInp.questionId exInp.playerId = some ea →
          ans.id = ea.id ∧ s'.answers.length = exDB.answers.length
            ∧ ∀ qid pid,
                answerPairCount s' qid pid = answerPairCount exDB qid pid) ∧
        (answerFor exDB exInp.questionId exInp.playerId = none →
          s'.answers = exDB.answers ++ [ans]
            ∧ answerPairCount s' exInp.questionId exInp.playerId = 1) ∧
        (AnswersUnique exDB → AnswersUnique s') :=
  ⟨rfl, rfl, rfl, rfl, Or.inr rfl,
   recordAnswer_upsert_unique exDB exUser exInp "a1" 5 exQuestion exPlayer
     exRoom rfl rfl rfl rfl (Or.inr rfl)⟩

/-! ### Sum reconciliation lemmas -/

theorem sumFor_append_single (l : List Answer) (a : Answer) (pid : String) :
    sumFor (l ++ [a]) pid
      = sumFor l pid + (if a.playerId == pid then a.scoreAwarded else 0) := by
  rw [sumFor_append, sumFor_cons, sumFor_nil, add_zero]

theorem sumFor_updateWhere_unique {l : List Answer} {ea : Answer}
    (hmem : ea ∈ l) (huniq : KeyUnique Answer.id l)
    (f : Answer → Answer) (hfp : ∀ a, (f a).playerId = a.playerId)
    (pid : String) :
    sumFor (updateWhere (fun a => a.id == ea.id) f l) pid
      = sumFor l pid
        - (if ea.playerId == pid then ea.scoreAwarded else 0)
        + (if ea.playerId == pid then (f ea).scoreAwarded else 0) := by
  obtain ⟨l₁, l₂, rfl⟩ := List.append_of_mem hmem
  rw [KeyUnique, List.pairwise_append] at huniq
  obtain ⟨h1, h2, h12⟩ := huniq
  have hl1 : ∀ b ∈ l₁, (b.id == ea.id) = false := by
    intro b hb
    have := h12 b hb ea (List.mem_cons_self _ _)
    simp [this]
  have hl2 : ∀ b ∈ l₂, (b.id == ea.id) = false := by
    intro b hb
    have := (List.pairwise_cons.mp h2).1 b hb
    simp [Ne.symm this]
  have hu : updateWhere (fun a => a.id == ea.id) f (l₁ ++ ea :: l₂)
      = l₁ ++ f ea :: l₂ := by
    rw [updateWhere, List.map_append, List.map_cons]
    congr 1
    · exact List.map_congr_left (fun b hb => by simp [hl1 b hb]) |>.trans
        (List.map_id _)
    · congr 1
      · simp
      · exact List.map_congr_left (fun b hb => by simp [hl2 b hb]) |>.trans
          (List.map_id _)
  rw [hu, sumFor_append, sumFor_append, sumFor_cons, sumFor_cons, hfp ea]
  by_cases hc : (ea.playerId == pid) = true
  · rw [hc]
    simp only [if_true]
    ring
  · rw [Bool.not_eq_true] at hc
    rw [hc]
    simp only [Bool.false_eq_true, if_false]
    ring

/-- A state with the same player and answer tables satisfies the same
scoring invariant. -/
theorem ScoreInv_frames {s s' : DB} (hpl : s'.players = s.players)
    (ha : s'.answers = s.answers) (h : ScoreInv s) : ScoreInv s' := by
  intro p hmem
  rw [ha]
  exact h p (hpl ▸ hmem)

/-! ### Success inversion for the handlers -/

/-- Inverting a successful `recordAnswer`: the caller is signed in, every
lookup succeeded, the rooms matched, the caller was authorized, and the
result is the write phase's. -/
theorem recordAnswer_split {s : DB} {ctx : Option User}
    {inp : RecordAnswerInput} {fid : String} {now : Nat} {s' : DB}
    {ans : Answer}
    (h : recordAnswer s ctx inp fid now = .ok (s', ans)) :
    ∃ user question player room,
      ctx = some user
      ∧ s.questions.find? (fun q => q.id == inp.questionId) = some question
      ∧ s.players.find? (fun p => p.id == inp.playerId) = some player
      ∧ player.roomId = question.roomId
      ∧ s.rooms.find? (fun r => r.id == question.roomId) = some room
      ∧ (room.hostUserId = user.id ∨ player.userId = some user.id)
      ∧ (s', ans) = recordAnswerCore s inp question player fid now := by
  cases ctx with
  | none => simp [recordAnswer, requireUser] at h
  | some user =>
    cases hq : s.questions.find? fun q => q.id == inp.questionId with
    | none => simp [recordAnswer, requireUser, hq] at h
    | some question =>
      cases hp : s.players.find? fun p => p.id == inp.playerId with
      | none => simp [recordAnswer, requireUser, hq, hp] at h
      | some player =>
        cases hrm : player.roomId == question.roomId with
        | false => simp [recordAnswer, requireUser, hq, hp, hrm] at h
        | true =>
          cases hr : s.rooms.find? fun r => r.id == question.roomId with
          | none => simp [recordAnswer, requireUser, hq, hp, hrm, hr] at h
          | some room =>
            cases hauth : room.hostUserId == user.id
                || player.userId == some user.id with
            | false =>
              simp [recordAnswer, requireUser, hq, hp, hrm, hr, hauth] at h
            | true =>
              have hrm' : player.roomId = question.roomId := by simpa using hrm
              have hauth' : room.hostUserId = user.id
                  ∨ player.userId = some user.id := by simpa using hauth
              refine ⟨user, question, player, room, rfl, rfl, rfl, hrm', hr,
                hauth', ?_⟩
              rw [recordAnswer_ok s user inp fid now hq hp hrm' hr hauth'] at h
              exact (Except.ok.inj h).symm

/-- Inverting a successful `joinRoom`: either the user already had a player
row (no write) or exactly the returned row, with `totalScore` 0 and the
fresh id, was appended. -/
theorem joinRoom_split {s : DB} {ctx : Option User} {inp : JoinRoomInput}
    {fid : String} {now : Nat} {s' : DB} {pl : Player}
    (h : joinRoom s ctx inp fid now = .ok (s', pl)) :
    s' = s
    ∨ (s'.rooms = s.rooms ∧ s'.questions = s.questions
        ∧ s'.answers = s.answers ∧ s'.players = s.players ++ [pl]
        ∧ pl.totalScore = 0 ∧ pl.id = fid) := by
  cases ctx with
  | none => simp [joinRoom, requireUser] at h
  | some user =>
    cases hroom : s.rooms.find? fun r => r.id == inp.roomId with
    | none => simp [joinRoom, requireUser, hroom] at h
    | some room =>
      cases hex : s.players.find? fun p =>
          p.roomId == inp.roomId && p.userId == some user.id with
      | some existing =>
        left
        simp only [joinRoom, requireUser, hroom, hex] at h
        have hpair := Except.ok.inj h
        injection hpair with h1 h2
        exact h1.symm
      | none =>
        right
        simp only [joinRoom, requireUser, hroom, hex] at h
        have hpair := Except.ok.inj h
        injection hpair with h1 h2
        subst h1
        subst h2
        exact ⟨rfl, rfl, rfl, rfl, rfl, rfl⟩

/-- `createRoom` succeeds by appending a room row only. -/
theorem createRoom_frame {s : DB} {ctx : Option User} {inp : CreateRoomInput}
    {fid : String} {now : Nat} {s' : DB} {r : Room}
    (h : createRoom s ctx inp fid now = .ok (s', r)) :
    s'.players = s.players ∧ s'.questions = s.questions
      ∧ s'.answers = s.answers := by
  cases ctx with
  | none => simp [createRoom, requireUser] at h
  | some user =>
    simp only [createRoom, requireUser] at h
    have hpair := Except.ok.inj h
    injection hpair with h1 h2
    subst h1
    exact ⟨rfl, rfl, rfl⟩

/-- `updateRoom` succeeds by rewriting room rows only. -/
theorem updateRoom_frame {s : DB} {ctx : Option User} {inp : UpdateRoomInput}
    {now : Nat} {s' : DB} {r : Room}
    (h : updateRoom s ctx inp now = .ok (s', r)) :
    s'.players = s.players ∧ s'.questions = s.questions
      ∧ s'.answers = s.answers := by
  cases ctx with
  | none => simp [updateRoom, requireUser] at h
  | some user =>
    cases hf : s.rooms.find? fun x => x.id == inp.id
        && x.hostUserId == user.id with
    | none => simp [updateRoom, requireUser, loadOwnedRoom, hf] at h
    | some room =>
      cases hch : updateRoomHasChanges inp with
      | false => simp [updateRoom, requireUser, loadOwnedRoom, hf, hch] at h
      | true =>
        simp only [updateRoom, requireUser, loadOwnedRoom, hf, hch,
          if_true] at h
        have hpair := Except.ok.inj h
        injection hpair with h1 h2
        subst h1
        exact ⟨rfl, rfl, rfl⟩

/-- `upsertQuestion` succeeds by rewriting or appending question rows only. -/
theorem upsertQuestion_frame {s : DB} {ctx : Option User}
    {inp : UpsertQuestionInput} {fid : String} {now : Nat} {s' : DB}
    {q : Question}
    (h : upsertQuestion s ctx inp fid now = .ok (s', q)) :
    s'.players = s.players ∧ s'.rooms = s.rooms ∧ s'.answers = s.answers := by
  cases ctx with
  | none => simp [upsertQuestion, requireUser] at h
  | some user =>
    cases hf : s.rooms.find? fun x => x.id == inp.roomId
        && x.hostUserId == user.id with
    | none => simp [upsertQuestion, requireUser, loadOwnedRoom, hf] at h
    | some room =>
      cases hid : truthy inp.id with
      | true =>
        cases hq : s.questions.find? fun x => x.id == inp.id.getD "" with
        | none =>
          simp [upsertQuestion, requireUser, loadOwnedRoom, hf, hid, hq] at h
        | some existing =>
          cases hrm : existing.roomId == inp.roomId with
          | false =>
            simp [upsertQuestion, requireUser, loadOwnedRoom, hf, hid, hq,
              hrm] at h
          | true =>
            simp only [upsertQuestion, requireUser, loadOwnedRoom, hf, hid,
              hq, hrm, if_true] at h
            have hpair := Except.ok.inj h
            injection hpair with h1 h2
            subst h1
            exact ⟨rfl, rfl, rfl⟩
      | false =>
        simp only [upsertQuestion, requireUser, loadOwnedRoom, hf, hid,
          Bool.false_eq_true, if_false] at h
        have hpair := Except.ok.inj h
        injection hpair with h1 h2
        subst h1
        exact ⟨rfl, rfl, rfl⟩

/-- `listMyRooms` returns the store unchanged. -/
theorem listMyRooms_state {s : DB} {ctx : Option User}
    {inp : ListMyRoomsInput} {s' : DB} {res : List Room × Nat}
    (h : listMyRooms s ctx inp = .ok (s', res)) : s' = s := by
  cases ctx with
  | none => simp [listMyRooms, requireUser] at h
  | some user =>
    simp only [listMyRooms, requireUser] at h
    have hpair := Except.ok.inj h
    injection hpair with h1 h2
    exact h1.symm

/-- `listRoomQuestions` returns the store unchanged. -/
theorem listRoomQuestions_state {s : DB} {ctx : Option User} {rid : String}
    {s' : DB} {res : List Question × Nat}
    (h : listRoomQuestions s ctx rid = .ok (s', res)) : s' = s := by
  cases ctx with
  | none => simp [listRoomQuestions, requireUser] at h
  | some user =>
    cases hf : s.rooms.find? fun x => x.id == rid
        && x.hostUserId == user.id with
    | none => simp [listRoomQuestions, requireUser, loadOwnedRoom, hf] at h
    | some room =>
      simp only [listRoomQuestions, requireUser, loadOwnedRoom, hf] at h
      have hpair := Except.ok.inj h
      injection hpair with h1 h2
      exact h1.symm

/-- C3: every operation preserves the invariant that each player's
`totalScore` equals the sum of `scoreAwarded` over that player's answer
rows. The room/question writers and the read-only listings touch neither
players nor answers; `joinRoom` only appends a player with `totalScore` 0
and (its id being fresh) no answer rows; `recordAnswer` writes the player's
reconciled `totalScore` together with the upserted answer's `scoreAwarded`
(using the store's primary-key uniqueness of player and answer ids). -/
theorem totalScore_invariant_all_ops (s : DB) (ctx : Option User) :
    (∀ inp fid now s' r, createRoom s ctx inp fid now = .ok (s', r) →
      s'.players = s.players ∧ s'.answers = s.answers
        ∧ (ScoreInv s → ScoreInv s'))
    ∧ (∀ inp now s' r, updateRoom s ctx inp now = .ok (s', r) →
      s'.players = s.players ∧ s'.answers = s.answers
        ∧ (ScoreInv s → ScoreInv s'))
    ∧ (∀ inp s' res, listMyRooms s ctx inp = .ok (s', res) → s' = s)
    ∧ (∀ inp fid now s' q, upsertQuestion s ctx inp fid now = .ok (s', q) →
      s'.players = s.players ∧ s'.answers = s.answers
        ∧ (ScoreInv s → ScoreInv s'))
    ∧ (∀ rid s' res, listRoomQuestions s ctx rid = .ok (s', res) → s' = s)
    ∧ (∀ inp fid now s' pl, joinRoom s ctx inp fid now = .ok (s', pl) →
      (∀ a ∈ s.answers, a.playerId ≠ fid) → ScoreInv s → ScoreInv s')
    ∧ (∀ inp fid now s' ans, recordAnswer s ctx inp fid now = .ok (s', ans) →
      KeyUnique Player.id s.players → KeyUnique Answer.id s.answers →
      ScoreInv s → ScoreInv s') := by
  refine ⟨?_, ?_, ?_, ?_, ?_, ?_, ?_⟩
  · intro inp fid now s' r h
    obtain ⟨h1, h2, h3⟩ := createRoom_frame h
    exact ⟨h1, h3, fun hinv => ScoreInv_frames h1 h3 hinv⟩
  · intro inp now s' r h
    obtain ⟨h1, h2, h3⟩ := updateRoom_frame h
    exact ⟨h1, h3, fun hinv => ScoreInv_frames h1 h3 hinv⟩
  · intro inp s' res h
    exact listMyRooms_state h
  · intro inp fid now s' q h
    obtain ⟨h1, h2, h3⟩ := upsertQuestion_frame h
    exact ⟨h1, h3, fun hinv => ScoreInv_frames h1 h3 hinv⟩
  · intro rid s' res h
    exact listRoomQuestions_state h
  · intro inp fid now s' pl h hfresh hinv
    rcases joinRoom_split h with rfl | ⟨-, -, ha, hpl, htot, hid⟩
    · exact hinv
    · intro p hmem
      rw [hpl] at hmem
      rcases List.mem_append.mp hmem with hm | hm
      · rw [ha]
        exact hinv p hm
      · have hppl : p = pl := by simpa using hm
        subst hppl
        rw [ha, htot, hid]
        have hnil : s.answers.filter (fun a => a.playerId == fid) = [] := by
          rw [List.filter_eq_nil_iff]
          intro a hmem'
          simpa using hfresh a hmem'
        rw [sumFor, hnil]
        rfl
  · intro inp fid now s' ans h hup hua hinv
    obtain ⟨user, question, player, room, -, hq, hp, hrm, hr, -, hcore⟩ :=
      recordAnswer_split h
    have hpid : player.id = inp.playerId := player_id_of_find? hp
    have hpmem : player ∈ s.players := List.mem_of_find?_eq_some hp
    cases hea : s.answers.find? fun a => a.questionId == inp.questionId
        && a.playerId == inp.playerId with
    | some ea =>
      rw [recordAnswerCore_existing s inp question player fid now hea] at hcore
      injection hcore with hs' hans'
      subst hs'
      have heamem : ea ∈ s.answers := List.mem_of_find?_eq_some hea
      have heapid : ea.playerId = inp.playerId := by
        have := List.find?_some hea
        simp only [Bool.and_eq_true, beq_iff_eq] at this
        exact this.2
      intro p' hmem'
      simp only [updateWhere] at hmem'
      rcases List.mem_map.mp hmem' with ⟨p₀, hp₀, rfl⟩
      show (if (p₀.id == player.id) = true
          then raSetTotal player ea.scoreAwarded inp question p₀
          else p₀).totalScore = sumFor _ _
      by_cases hc : (p₀.id == player.id) = true
      · rw [if_pos hc]
        have hpeq : p₀ = player :=
          eq_of_mem_of_key Player.id hup hp₀ hpmem (by simpa using hc)
        subst hpeq
        rw [sumFor_updateWhere_unique heamem hua
          (raSetAnswer inp question now) (fun a => rfl)]
        have hcond : (ea.playerId == (raSetTotal p₀ ea.scoreAwarded inp
            question p₀).id) = true := by
          simp [raSetTotal, heapid, hpid]
        rw [hcond]
        simp only [if_true]
        have hinvp := hinv p₀ hp₀
        simp only [raSetTotal, raSetAnswer]
        rw [← hinvp]
      · rw [if_neg hc]
        rw [sumFor_updateWhere_unique heamem hua
          (raSetAnswer inp question now) (fun a => rfl)]
        have hne : p₀.id ≠ player.id := by simpa using hc
        have hcond : (ea.playerId == p₀.id) = false := by
          rw [heapid, ← hpid]
          simp [Ne.symm hne]
        rw [hcond]
        simp only [Bool.false_eq_true, if_false, sub_zero, add_zero]
        exact hinv p₀ hp₀
    | none =>
      rw [recordAnswerCore_insert s inp question player fid now hea] at hcore
      injection hcore with hs' hans'
      subst hs'
      intro p' hmem'
      simp only [updateWhere] at hmem'
      rcases List.mem_map.mp hmem' with ⟨p₀, hp₀, rfl⟩
      show (if (p₀.id == player.id) = true
          then raSetTotal player 0 inp question p₀
          else p₀).totalScore = sumFor _ _
      rw [sumFor_append_single]
      by_cases hc : (p₀.id == player.id) = true
      · rw [if_pos hc]
        have hpeq : p₀ = player :=
          eq_of_mem_of_key Player.id hup hp₀ hpmem (by simpa using hc)
        subst hpeq
        have hcond : ((raNewAnswer inp question fid now).playerId
            == (raSetTotal p₀ 0 inp question p₀).id) = true := by
          simp [raNewAnswer, raSetTotal, hpid]
        rw [hcond]
        simp only [if_true]
        have hinvp := hinv p₀ hp₀
        simp only [raSetTotal, raNewAnswer]
        rw [← hinvp]
        ring
      · rw [if_neg hc]
        have hne : p₀.id ≠ player.id := by simpa using hc
        have hcond : ((raNewAnswer inp question fid now).playerId
            == p₀.id) = false := by
          simp only [raNewAnswer]
          show (inp.playerId == p₀.id) = false
          rw [← hpid]
          simp [Ne.symm hne]
        rw [hcond]
        simp only [Bool.false_eq_true, if_false, add_zero]
        exact hinv p₀ hp₀

/-! Concrete runs of all seven operations for C3's witness. -/

def exRoomNew : Room := ⟨"r9", "h1", "New", none, some "lobby", none, 7, 7⟩

def exDBcr : DB := ⟨[exRoom, exRoomNew], [exPlayer], [exQuestion], []⟩

def exRoomRen : Room := ⟨"r1", "h1", "Renamed", none, some "lobby", some 8, 0, 8⟩

def exDBur : DB := ⟨[exRoomRen], [exPlayer], [exQuestion], []⟩

def exQNew : Question :=
  ⟨"q9", "r1", 1, "Q2", none, none, none, none, none, none, 9⟩

def exDBuq : DB := ⟨[exRoom], [exPlayer], [exQuestion, exQNew], []⟩

def exPNew : Player := ⟨"p9", "r1", some "u2", "Player", 0, 10, none⟩

def exDBjr : DB := ⟨[exRoom], [exPlayer, exPNew], [exQuestion], []⟩

def exPlayerS : Player := ⟨"p1", "r1", some "u1", "Alice", 10, 0, none⟩

def exAnsNew : Answer := ⟨"a1", "q1", "p1", some "B", true, 5, 10⟩

def exDBra : DB := ⟨[exRoom], [exPlayerS], [exQuestion], [exAnsNew]⟩

/-- Witness for C3: one concrete successful run of each of the seven
operations, with the resulting stores satisfying the scoring invariant. -/
theorem totalScore_invariant_all_ops_witness :
    (exDBcr.players = exDB.players ∧ exDBcr.answers = exDB.answers
      ∧ ScoreInv exDBcr)
    ∧ (exDBur.players = exDB.players ∧ exDBur.answers = exDB.answers
      ∧ ScoreInv exDBur)
    ∧ exDB = exDB
    ∧ (exDBuq.players = exDB.players ∧ exDBuq.answers = exDB.answers
      ∧ ScoreInv exDBuq)
    ∧ ScoreInv exDBjr
    ∧ ScoreInv exDBra := by
  have hinv : ScoreInv exDB := by
    intro p hp
    have hpe : p = exPlayer := by simpa [exDB] using hp
    subst hpe
    rfl
  have h1 := (totalScore_invariant_all_ops exDB (some exHost)).1
    ⟨"New", none, none, none⟩ "r9" 7 exDBcr exRoomNew rfl
  have h2 := (totalScore_invariant_all_ops exDB (some exHost)).2.1
    ⟨"r1", some "Renamed", none, none, none⟩ 8 exDBur exRoomRen rfl
  have h3 := (totalScore_invariant_all_ops exDB (some exHost)).2.2.1
    ⟨1, 20⟩ exDB ([exRoom], 1)
    (by simp [listMyRooms, requireUser, exDB, exRoom, exHost])
  have h4 := (totalScore_invariant_all_ops exDB (some exHost)).2.2.2.1
    ⟨"r1", none, 1, "Q2", none, none, none, none, none, none⟩ "q9" 9
    exDBuq exQNew rfl
  have h5 := (totalScore_invariant_all_ops exDB (some exHost)).2.2.2.2.1
    "r1" exDB ([exQuestion], 1)
    (by simp [listRoomQuestions, requireUser, loadOwnedRoom, exDB, exRoom,
      exQuestion, exHost])
  have h6 := (totalScore_invariant_all_ops exDB (some exUser2)).2.2.2.2.2.1
    ⟨"r1", none⟩ "p9" 10 exDBjr exPNew rfl
    (by intro a ha; simp [exDB] at ha) hinv
  have h7 := (totalScore_invariant_all_ops exDB (some exUser)).2.2.2.2.2.2
    exInp "a1" 5 exDBra exAnsNew rfl
    (by simp [KeyUnique, exDB]) (by simp [KeyUnique, exDB]) hinv
  exact ⟨⟨h1.1, h1.2.1, h1.2.2 hinv⟩, ⟨h2.1, h2.2.1, h2.2.2 hinv⟩, h3,
    ⟨h4.1, h4.2.1, h4.2.2 hinv⟩, h6, h7⟩

/-- C7: `recordAnswer` is idempotent on persistent state: running it twice
with the same `(questionId, playerId, selectedOptionKey)` leaves the
player's `totalScore` and the pair's answer row's `id`,
`selectedOptionKey`, `isCorrect` and `scoreAwarded` the same as running it
once — re-answering replaces the prior award instead of accumulating it. -/
theorem recordAnswer_idempotent
    (s : DB) (user : User) (inp : RecordAnswerInput)
    (fid₁ fid₂ : String) (t₁ t₂ : Nat)
    (question : Question) (player : Player) (room : Room)
    (hq : s.questions.find? (fun q => q.id == inp.questionId) = some question)
    (hp : s.players.find? (fun p => p.id == inp.playerId) = some player)
    (hrm : player.roomId = question.roomId)
    (hr : s.rooms.find? (fun r => r.id == question.roomId) = some room)
    (hauth : room.hostUserId = user.id ∨ player.userId = some user.id) :
    ∃ s₁ a₁ s₂ a₂,
      recordAnswer s (some user) inp fid₁ t₁ = .ok (s₁, a₁)
      ∧ recordAnswer s₁ (some user) inp fid₂ t₂ = .ok (s₂, a₂)
      ∧ a₂.id = a₁.id ∧ a₂.selectedOptionKey = a₁.selectedOptionKey
      ∧ a₂.isCorrect = a₁.isCorrect ∧ a₂.scoreAwarded = a₁.scoreAwarded
      ∧ playerTotal s₂ inp.playerId = playerTotal s₁ inp.playerId
      ∧ ((answerFor s₂ inp.questionId inp.playerId).map
          fun a => (a.id, a.selectedOptionKey, a.isCorrect, a.scoreAwarded))
        = ((answerFor s₁ inp.questionId inp.playerId).map
          fun a => (a.id, a.selectedOptionKey, a.isCorrect, a.scoreAwarded)) := by
  cases hea : s.answers.find? fun a => a.questionId == inp.questionId
      && a.playerId == inp.playerId with
  | some ea =>
    have h1 := recordAnswer_ok s user inp fid₁ t₁ hq hp hrm hr hauth
    rw [recordAnswerCore_existing s inp question player fid₁ t₁ hea] at h1
    have hp2 : (updateWhere (fun p => p.id == player.id)
        (raSetTotal player ea.scoreAwarded inp question) s.players).find?
          (fun p => p.id == inp.playerId)
        = some (raSetTotal player ea.scoreAwarded inp question player) := by
      rw [find?_updateWhere, hp]
      · simp
      · intro x
        rfl
    have hea2 : (updateWhere (fun a => a.id == ea.id)
        (raSetAnswer inp question t₁) s.answers).find?
          (fun a => a.questionId == inp.questionId
            && a.playerId == inp.playerId)
        = some (raSetAnswer inp question t₁ ea) := by
      rw [find?_updateWhere, hea]
      · simp
      · intro x
        rfl
    have h2 := recordAnswer_ok
      ({ s with
          answers := updateWhere (fun a => a.id == ea.id)
            (raSetAnswer inp question t₁) s.answers
          players := updateWhere (fun p => p.id == player.id)
            (raSetTotal player ea.scoreAwarded inp question) s.players })
      user inp fid₂ t₂ hq hp2 hrm hr hauth
    rw [recordAnswerCore_existing _ inp question
      (raSetTotal player ea.scoreAwarded inp question player) fid₂ t₂
      hea2] at h2
    refine ⟨_, _, _, _, h1, h2, rfl, rfl, rfl, rfl, ?_, ?_⟩
    · rw [playerTotal, playerTotal]
      show (List.find? _ (updateWhere _ _ _)).map _
        = (List.find? _ (updateWhere _ _ _)).map _
      rw [find?_updateWhere, hp2]
      · simp only [Option.map_some']
        have hif : ((raSetTotal player ea.scoreAwarded inp question
            player).id == (raSetTotal player ea.scoreAwarded inp question
              player).id) = true := by simp
        rw [if_pos hif]
        show some (((raSetTotal player ea.scoreAwarded inp question player)
          |>.totalScore) - raScore inp question + raScore inp question) = _
        congr 1
        omega
      · intro x
        rfl
    · rw [answerFor, answerFor]
      show (List.find? _ (updateWhere _ _ _)).map _
        = (List.find? _ (updateWhere _ _ _)).map _
      rw [find?_updateWhere, hea2]
      · simp only [Option.map_some']
        have hif : ((raSetAnswer inp question t₁ ea).id
            == (raSetAnswer inp question t₁ ea).id) = true := by simp
        rw [if_pos hif]
        rfl
      · intro x
        rfl
  | none =>
    have h1 := recordAnswer_ok s user inp fid₁ t₁ hq hp hrm hr hauth
    rw [recordAnswerCore_insert s inp question player fid₁ t₁ hea] at h1
    have hp2 : (updateWhere (fun p => p.id == player.id)
        (raSetTotal player 0 inp question) s.players).find?
          (fun p => p.id == inp.playerId)
        = some (raSetTotal player 0 inp question player) := by
      rw [find?_updateWhere, hp]
      · simp
      · intro x
        rfl
    have hea2 : (s.answers ++ [raNewAnswer inp question fid₁ t₁]).find?
        (fun a => a.questionId == inp.questionId
          && a.playerId == inp.playerId)
        = some (raNewAnswer inp question fid₁ t₁) := by
      rw [List.find?_append, hea]
      simp [raNewAnswer]
    have h2 := recordAnswer_ok
      ({ s with
          answers := s.answers ++ [raNewAnswer inp question fid₁ t₁]
          players := updateWhere (fun p => p.id == player.id)
            (raSetTotal player 0 inp question) s.players })
      user inp fid₂ t₂ hq hp2 hrm hr hauth
    rw [recordAnswerCore_existing _ inp question
      (raSetTotal player 0 inp question player) fid₂ t₂ hea2] at h2
    refine ⟨_, _, _, _, h1, h2, rfl, rfl, rfl, rfl, ?_, ?_⟩
    · rw [playerTotal, playerTotal]
      show (List.find? _ (updateWhere _ _ _)).map _
        = (List.find? _ (updateWhere _ _ _)).map _
      rw [find?_updateWhere, hp2]
      · simp only [Option.map_some']
        have hif : ((raSetTotal player 0 inp question player).id
            == (raSetTotal player 0 inp question player).id) = true := by simp
        rw [if_pos hif]
        show some (((raSetTotal player 0 inp question player)
          |>.totalScore) - raScore inp question + raScore inp question) = _
        congr 1
        omega
      · intro x
        rfl
    · rw [answerFor, answerFor]
      show (List.find? _ (updateWhere _ _ _)).map _
        = (List.find? _ _).map _
      rw [find?_updateWhere, hea2]
      · simp only [Option.map_some']
        have hif : ((raNewAnswer inp question fid₁ t₁).id
            == (raNewAnswer inp question fid₁ t₁).id) = true := by simp
        rw [if_pos hif]
        rfl
      · intro x
        rfl

/-- Witness for C7: answering `q1` twice for `p1` with key `B`; the score
stays 10 and the answer row keeps its identity. -/
theorem recordAnswer_idempotent_witness :
    (exDB.questions.find? (fun q => q.id == exInp.questionId) = some exQuestion)
    ∧ (exDB.players.find? (fun p => p.id == exInp.playerId) = some exPlayer)
    ∧ exPlayer.roomId = exQuestion.roomId
    ∧ (exDB.rooms.find? (fun r => r.id == exQuestion.roomId) = some exRoom)
    ∧ (exRoom.hostUserId = exUser.id ∨ exPlayer.userId = some exUser.id)
    ∧ ∃ s₁ a₁ s₂ a₂,
        recordAnswer exDB (some exUser) exInp "a1" 5 = .ok (s₁, a₁)
        ∧ recordAnswer s₁ (some exUser) exInp "a2" 6 = .ok (s₂, a₂)
        ∧ a₂.id = a₁.id ∧ a₂.selectedOptionKey = a₁.selectedOptionKey
        ∧ a₂.isCorrect = a₁.isCorrect ∧ a₂.scoreAwarded = a₁.scoreAwarded
        ∧ playerTotal s₂ exInp.playerId = playerTotal s₁ exInp.playerId
        ∧ ((answerFor s₂ exInp.questionId exInp.playerId).map
            fun a => (a.id, a.selectedOptionKey, a.isCorrect, a.scoreAwarded))
          = ((answerFor s₁ exInp.questionId exInp.playerId).map
            fun a => (a.id, a.selectedOptionKey, a.isCorrect,
              a.scoreAwarded)) :=
  ⟨rfl, rfl, rfl, rfl, Or.inr rfl,
   recordAnswer_idempotent exDB exUser exInp "a1" "a2" 5 6 exQuestion
     exPlayer exRoom rfl rfl rfl rfl (Or.inr rfl)⟩

/-- C5: `updateRoom`, `upsertQuestion` and `listRoomQuestions` all go
through `loadOwnedRoom` and fail with `NOT_FOUND` (before any write) unless
a room with the given id exists whose `hostUserId` is the caller's id. -/
theorem owner_check_not_found
    (s : DB) (user : User) (rid : String)
    (nm acc st : Option String) (mx : Option Nat)
    (oid : Option String) (oi : Int) (qt : String)
    (oa ob oc od cok : Option String) (tl : Option Nat)
    (fid : String) (now : Nat)
    (hnone : s.rooms.find? (fun r => r.id == rid && r.hostUserId == user.id)
      = none) :
    updateRoom s (some user) ⟨rid, nm, acc, st, mx⟩ now
      = .error ⟨.NOT_FOUND, "Room not found for this user."⟩
    ∧ upsertQuestion s (some user) ⟨rid, oid, oi, qt, oa, ob, oc, od, cok, tl⟩
        fid now = .error ⟨.NOT_FOUND, "Room not found for this user."⟩
    ∧ listRoomQuestions s (some user) rid
      = .error ⟨.NOT_FOUND, "Room not found for this user."⟩ := by
  refine ⟨?_, ?_, ?_⟩
  · simp [updateRoom, requireUser, loadOwnedRoom, hnone]
  · simp [upsertQuestion, requireUser, loadOwnedRoom, hnone]
  · simp [listRoomQuestions, requireUser, loadOwnedRoom, hnone]

/-- Witness for C5: the outsider `u2` is not the host of room `r1`, so all
three owner-scoped operations fail with `NOT_FOUND`. -/
theorem owner_check_not_found_witness :
    (exDB.rooms.find? (fun r => r.id == "r1" && r.hostUserId == exUser2.id)
      = none)
    ∧ (updateRoom exDB (some exUser2) ⟨"r1", some "X", none, none, none⟩ 8
        = .error ⟨.NOT_FOUND, "Room not found for this user."⟩
      ∧ upsertQuestion exDB (some exUser2)
          ⟨"r1", none, 0, "Q", none, none, none, none, none, none⟩ "f1" 8
        = .error ⟨.NOT_FOUND, "Room not found for this user."⟩
      ∧ listRoomQuestions exDB (some exUser2) "r1"
        = .error ⟨.NOT_FOUND, "Room not found for this user."⟩) :=
  ⟨rfl, owner_check_not_found exDB exUser2 "r1" (some "X") none none none
    none 0 "Q" none none none none none none "f1" 8 rfl⟩

/-- C6: for a room owned by the caller, `listRoomQuestions` returns exactly
the questions whose `roomId` is the given room id, in ascending
`orderIndex` order, with `total` equal to the number of returned items. -/
theorem listRoomQuestions_content
    (s : DB) (user : User) (rid : String) (room : Room)
    (hroom : s.rooms.find? (fun r => r.id == rid && r.hostUserId == user.id)
      = some room) :
    ∃ items total,
      listRoomQuestions s (some user) rid = .ok (s, (items, total))
      ∧ items.Perm (s.questions.filter fun q => q.roomId == rid)
      ∧ items.Pairwise (fun a b => a.orderIndex ≤ b.orderIndex)
      ∧ total = items.length := by
  have htrans : ∀ a b c : Question,
      (decide (a.orderIndex ≤ b.orderIndex)) = true →
      (decide (b.orderIndex ≤ c.orderIndex)) = true →
      (decide (a.orderIndex ≤ c.orderIndex)) = true := by
    intro a b c hab hbc
    simp only [decide_eq_true_eq] at hab hbc ⊢
    exact le_trans hab hbc
  have htotal : ∀ a b : Question,
      ((decide (a.orderIndex ≤ b.orderIndex))
        || (decide (b.orderIndex ≤ a.orderIndex))) = true := by
    intro a b
    simpa using le_total a.orderIndex b.orderIndex
  refine ⟨(s.questions.filter fun q => q.roomId == rid).mergeSort
    (fun a b => decide (a.orderIndex ≤ b.orderIndex)), _, ?_, ?_, ?_, rfl⟩
  · simp [listRoomQuestions, requireUser, loadOwnedRoom, hroom]
  · exact List.mergeSort_perm _ _
  · exact (@List.sorted_mergeSort Question
      (fun a b => decide (a.orderIndex ≤ b.orderIndex)) htrans htotal
      (s.questions.filter fun q => q.roomId == rid)).imp
      (fun h => by simpa using h)

/-- Witness for C6: the host lists room `r1`, getting its single question. -/
theorem listRoomQuestions_content_witness :
    (exDB.rooms.find? (fun r => r.id == "r1" && r.hostUserId == exHost.id)
      = some exRoom)
    ∧ ∃ items total,
        listRoomQuestions exDB (some exHost) "r1" = .ok (exDB, (items, total))
        ∧ items.Perm (exDB.questions.filter fun q => q.roomId == "r1")
        ∧ items.Pairwise (fun a b => a.orderIndex ≤ b.orderIndex)
        ∧ total = items.length :=
  ⟨rfl, listRoomQuestions_content exDB exHost "r1" exRoom rfl⟩

/-- C8: `joinRoom` throws `NOT_FOUND` precisely when no room with the given
id exists; whenever the room exists it succeeds for any authenticated user
— `accessCode`, `status` and `maxPlayers` are never consulted, so a
completed or full room can still be joined. -/
theorem joinRoom_not_found_iff
    (s : DB) (user : User) (inp : JoinRoomInput) (fid : String) (now : Nat) :
    (s.rooms.find? (fun r => r.id == inp.roomId) = none →
      joinRoom s (some user) inp fid now
        = .error ⟨.NOT_FOUND, "Room not found."⟩)
    ∧ (∀ room, s.rooms.find? (fun r => r.id == inp.roomId) = some room →
      ∃ s' pl, joinRoom s (some user) inp fid now = .ok (s', pl)) := by
  constructor
  · intro h
    simp [joinRoom, requireUser, h]
  · intro room h
    cases hex : s.players.find? fun p => p.roomId == inp.roomId
        && p.userId == some user.id with
    | some ex => exact ⟨s, ex, by simp [joinRoom, requireUser, h, hex]⟩
    | none =>
      exact ⟨{ s with players := s.players ++ [⟨fid, inp.roomId, some user.id,
          inp.displayName.getD (user.email.getD "Player"), 0, now, none⟩] },
        ⟨fid, inp.roomId, some user.id,
          inp.displayName.getD (user.email.getD "Player"), 0, now, none⟩,
        by simp [joinRoom, requireUser, h, hex]⟩

/-- Witness for C8: joining an unknown room id fails with `NOT_FOUND`; the
completed room `r2`, already at its `maxPlayers` of 1, can still be joined
by `u2`. -/
theorem joinRoom_not_found_iff_witness :
    ((exDB2.rooms.find? (fun r => r.id == "zzz") = none)
      ∧ joinRoom exDB2 (some exUser2) ⟨"zzz", none⟩ "p9" 10
          = .error ⟨.NOT_FOUND, "Room not found."⟩)
    ∧ ((exDB2.rooms.find? (fun r => r.id == "r2") = some exRoom2)
      ∧ ∃ s' pl, joinRoom exDB2 (some exUser2) ⟨"r2", none⟩ "p9" 10
          = .ok (s', pl)) :=
  ⟨⟨rfl, (joinRoom_not_found_iff exDB2 exUser2 ⟨"zzz", none⟩ "p9" 10).1 rfl⟩,
   ⟨rfl, (joinRoom_not_found_iff exDB2 exUser2 ⟨"r2", none⟩ "p9" 10).2
      exRoom2 rfl⟩⟩

/-- C9: `joinRoom` keeps at most one player row per `(roomId, userId)` pair
and is idempotent: with an existing row for the caller it returns that row
and writes nothing (the given `displayName` is ignored); with none it
inserts exactly one row with `totalScore` 0 and display name defaulting to
the given name, else the user's email, else `"Player"`. -/
theorem joinRoom_idempotent_unique
    (s : DB) (user : User) (inp : JoinRoomInput) (fid : String) (now : Nat)
    (room : Room)
    (hroom : s.rooms.find? (fun r => r.id == inp.roomId) = some room) :
    (∀ ex, s.players.find? (fun p => p.roomId == inp.roomId
        && p.userId == some user.id) = some ex →
      joinRoom s (some user) inp fid now = .ok (s, ex))
    ∧ (s.players.find? (fun p => p.roomId == inp.roomId
        && p.userId == some user.id) = none →
      joinRoom s (some user) inp fid now
        = .ok ({ s with players := s.players
            ++ [⟨fid, inp.roomId, some user.id,
                inp.displayName.getD (user.email.getD "Player"), 0, now,
                none⟩] },
          ⟨fid, inp.roomId, some user.id,
            inp.displayName.getD (user.email.getD "Player"), 0, now, none⟩))
    ∧ (PlayersUnique s → ∀ s' pl,
        joinRoom s (some user) inp fid now = .ok (s', pl) →
        PlayersUnique s') := by
  refine ⟨?_, ?_, ?_⟩
  · intro ex hex
    simp [joinRoom, requireUser, hroom, hex]
  · intro hex
    simp [joinRoom, requireUser, hroom, hex]
  · intro huniq s' pl h
    cases hex : s.players.find? fun p => p.roomId == inp.roomId
        && p.userId == some user.id with
    | some ex =>
      simp only [joinRoom, requireUser, hroom, hex] at h
      have hpair := Except.ok.inj h
      injection hpair with h1 h2
      subst h1
      exact huniq
    | none =>
      simp only [joinRoom, requireUser, hroom, hex] at h
      have hpair := Except.ok.inj h
      injection hpair with h1 h2
      subst h1
      intro rid uid
      show ((s.players ++ [(⟨fid, inp.roomId, some user.id,
          inp.displayName.getD (user.email.getD "Player"), 0, now,
          none⟩ : Player)]).filter
        fun p => p.roomId == rid && p.userId == some uid).length ≤ 1
      rw [List.filter_append, List.length_append]
      by_cases hm : (inp.roomId == rid && (some user.id : Option String)
          == some uid) = true
      · simp only [Bool.and_eq_true, beq_iff_eq, Option.some.injEq] at hm
        obtain ⟨h1, h2⟩ := hm
        subst h1
        subst h2
        have h0 : (s.players.filter fun p => p.roomId == inp.roomId
            && p.userId == some user.id).length = 0 := by
          rw [List.length_eq_zero, List.filter_eq_nil_iff]
          intro p hp
          have := List.find?_eq_none.mp hex p hp
          simpa using this
        rw [h0]
        have hle : ((List.filter (fun p => p.roomId == inp.roomId
            && p.userId == some user.id)
            [(⟨fid, inp.roomId, some user.id,
              inp.displayName.getD (user.email.getD "Player"), 0, now,
              none⟩ : Player)]).length ≤ 1) :=
          le_trans (List.length_filter_le _ _) (by simp)
        omega
      · rw [Bool.not_eq_true] at hm
        have hm' : ((⟨fid, inp.roomId, some user.id,
            inp.displayName.getD (user.email.getD "Player"), 0, now,
            none⟩ : Player).roomId == rid
            && (⟨fid, inp.roomId, some user.id,
              inp.displayName.getD (user.email.getD "Player"), 0, now,
              none⟩ : Player).userId == some uid) = false := hm
        simp only [List.filter_cons, hm', Bool.false_eq_true, if_false,
          List.filter_nil, List.length_nil]
        have h1 := huniq rid uid
        rw [playerPairCount] at h1
        omega

/-- Witness for C9: `u1` already has player row `p1` in `r1`, so a second
join returns it unchanged; `u2` has none, so a join inserts the defaulted
row (`u2` has no email, hence `"Player"`). -/
theorem joinRoom_idempotent_unique_witness :
    (exDB.rooms.find? (fun r => r.id == "r1") = some exRoom)
    ∧ (exDB.players.find? (fun p => p.roomId == "r1"
        && p.userId == some exUser.id) = some exPlayer)
    ∧ joinRoom exDB (some exUser) ⟨"r1", some "Ignored"⟩ "p9" 10
        = .ok (exDB, exPlayer)
    ∧ (exDB.players.find? (fun p => p.roomId == "r1"
        && p.userId == some exUser2.id) = none)
    ∧ joinRoom exDB (some exUser2) ⟨"r1", none⟩ "p9" 10
        = .ok (exDBjr, exPNew)
    ∧ (PlayersUnique exDB → PlayersUnique exDBjr) :=
  ⟨rfl, rfl,
   (joinRoom_idempotent_unique exDB exUser ⟨"r1", some "Ignored"⟩ "p9" 10
     exRoom rfl).1 exPlayer rfl,
   rfl,
   (joinRoom_idempotent_unique exDB exUser2 ⟨"r1", none⟩ "p9" 10
     exRoom rfl).2.1 rfl,
   fun hu => (joinRoom_idempotent_unique exDB exUser2 ⟨"r1", none⟩ "p9" 10
     exRoom rfl).2.2 hu exDBjr exPNew
     ((joinRoom_idempotent_unique exDB exUser2 ⟨"r1", none⟩ "p9" 10
       exRoom rfl).2.1 rfl)⟩

/-- Rows not matched by an id-preserving `updateWhere` are untouched. -/
theorem filter_not_pred_updateWhere (q : α → Bool) (f : α → α) (l : List α)
    (hf : ∀ x, q (f x) = q x) :
    (updateWhere q f l).filter (fun x => !(q x))
      = l.filter (fun x => !(q x)) := by
  induction l with
  | nil => rfl
  | cons a l ih =>
    by_cases hq : q a = true <;>
      simp_all [updateWhere, List.filter_cons, hf a]

/-- C10: `updateRoom` with none of `name`, `accessCode`, `status`,
`maxPlayers` provided throws `BAD_REQUEST`; with at least one provided
(zod-valid) field it rewrites only the caller's room row, setting exactly
the provided fields plus `updatedAt`: the room's identity fields and every
unprovided field keep their values, rows with a different id are unchanged,
and the other three tables are untouched. -/
theorem updateRoom_frame_effect
    (s : DB) (user : User) (inp : UpdateRoomInput) (now : Nat) (room : Room)
    (hroom : s.rooms.find? (fun r => r.id == inp.id && r.hostUserId == user.id)
      = some room)
    (hname : inp.name ≠ some "") (hstatus : inp.status ≠ some "") :
    (inp.name = none ∧ inp.accessCode = none ∧ inp.status = none
        ∧ inp.maxPlayers = none →
      updateRoom s (some user) inp now
        = .error ⟨.BAD_REQUEST, "No changes provided for update."⟩)
    ∧ (¬(inp.name = none ∧ inp.accessCode = none ∧ inp.status = none
          ∧ inp.maxPlayers = none) →
      (updateRoom s (some user) inp now
        = .ok ({ s with rooms := (updateWhere (fun r => r.id == room.id)
            (applyRoomUpdates inp now) s.rooms) },
          applyRoomUpdates inp now room))
      ∧ (updateWhere (fun r => r.id == room.id) (applyRoomUpdates inp now)
          s.rooms).filter (fun r => !(r.id == room.id))
        = s.rooms.filter (fun r => !(r.id == room.id))
      ∧ (∀ r : Room, (applyRoomUpdates inp now r).id = r.id
          ∧ (applyRoomUpdates inp now r).hostUserId = r.hostUserId
          ∧ (applyRoomUpdates inp now r).createdAt = r.createdAt
          ∧ (applyRoomUpdates inp now r).updatedAt = now
          ∧ (inp.name = none → (applyRoomUpdates inp now r).name = r.name)
          ∧ (∀ v, inp.name = some v →
              (applyRoomUpdates inp now r).name = v)
          ∧ (inp.accessCode = none →
              (applyRoomUpdates inp now r).accessCode = r.accessCode)
          ∧ (∀ v, inp.accessCode = some v →
              (applyRoomUpdates inp now r).accessCode = some v)
          ∧ (inp.status = none →
              (applyRoomUpdates inp now r).status = r.status)
          ∧ (∀ v, inp.status = some v →
              (applyRoomUpdates inp now r).status = some v)
          ∧ (inp.maxPlayers = none →
              (applyRoomUpdates inp now r).maxPlayers = r.maxPlayers)
          ∧ (∀ v, inp.maxPlayers = some v →
              (applyRoomUpdates inp now r).maxPlayers = some v))) := by
  constructor
  · rintro ⟨hn, ha, hst, hm⟩
    have hch : updateRoomHasChanges inp = false := by
      simp [updateRoomHasChanges, hn, ha, hst, hm, truthy]
    simp [updateRoom, requireUser, loadOwnedRoom, hroom, hch]
  · intro hprov
    have hch : updateRoomHasChanges inp = true := by
      rw [updateRoomHasChanges]
      cases hn : inp.name with
      | some v =>
        have hv : ¬(v == "") = true := by
          simp only [beq_iff_eq]
          intro hveq
          exact hname (by rw [hn, hveq])
        simp [truthy, Bool.not_eq_true] at hv ⊢
        simp [hv]
      | none =>
        cases ha : inp.accessCode with
        | some v => simp
        | none =>
          cases hst : inp.status with
          | some v =>
            have hv : ¬(v == "") = true := by
              simp only [beq_iff_eq]
              intro hveq
              exact hstatus (by rw [hst, hveq])
            simp [truthy, Bool.not_eq_true] at hv ⊢
            simp [hv]
          | none =>
            cases hm : inp.maxPlayers with
            | some v => simp
            | none => exact absurd ⟨hn, ha, hst, hm⟩ hprov
    refine ⟨?_, ?_, ?_⟩
    · simp [updateRoom, requireUser, loadOwnedRoom, hroom, hch]
    · exact filter_not_pred_updateWhere _ _ _ fun x => rfl
    · intro r
      refine ⟨rfl, rfl, rfl, rfl, ?_, ?_, ?_, ?_, ?_, ?_, ?_, ?_⟩
      · intro hn
        simp [applyRoomUpdates, hn, truthy]
      · intro v hv
        have : ¬(v = "") := fun hveq => hname (by rw [hv, hveq])
        simp [applyRoomUpdates, hv, truthy, this]
      · intro ha
        simp [applyRoomUpdates, ha]
      · intro v hv
        simp [applyRoomUpdates, hv]
      · intro hst
        simp [applyRoomUpdates, hst, truthy]
      · intro v hv
        have : ¬(v = "") := fun hveq => hstatus (by rw [hv, hveq])
        simp [applyRoomUpdates, hv, truthy, this]
      · intro hm
        simp [applyRoomUpdates, hm]
      · intro v hv
        simp [applyRoomUpdates, hv]

/-- Witness for C10: an empty update on `r1` is rejected with
`BAD_REQUEST`; renaming `r1` succeeds, touching only that room row. -/
theorem updateRoom_frame_effect_witness :
    (exDB.rooms.find? (fun r => r.id == "r1" && r.hostUserId == exHost.id)
      = some exRoom)
    ∧ updateRoom exDB (some exHost) ⟨"r1", none, none, none, none⟩ 8
        = .error ⟨.BAD_REQUEST, "No changes provided for update."⟩
    ∧ updateRoom exDB (some exHost) ⟨"r1", some "Renamed", none, none, none⟩ 8
        = .ok (exDBur, exRoomRen) :=
  ⟨rfl,
   (updateRoom_frame_effect exDB exHost ⟨"r1", none, none, none, none⟩ 8
     exRoom rfl (by decide) (by decide)).1 ⟨rfl, rfl, rfl, rfl⟩,
   ((updateRoom_frame_effect exDB exHost
     ⟨"r1", some "Renamed", none, none, none⟩ 8 exRoom rfl (by decide)
     (by decide)).2 (by simp)).1⟩

end TriviaArena
